import Mathlib

/-
  Verification of the SPU API core (libspu / spudrv / simulator) against its
  natural-language specification.  The C and C++ sources are shallowly embedded:
  machine words are Nat taken modulo 2^32 where overflow matters, the PCI bus
  and the GSID resolver are universally quantified collaborators, and the
  std::map backing the simulator is modelled as an association list.
-/

set_option linter.unusedVariables false

namespace SPU

/-- Result status codes of libspu operations (status_t): the spec's Ok / Error. -/
inductive status_t where
  | OK : status_t
  | ERR : status_t
deriving DecidableEq

open status_t

/-- pair_t: key, value and status returned by key-oriented queries.
Modelled from the spec: the libspu header defining pair_t is not under src;
per the spec a pair built from a status alone carries sentinel (zero) key and
value, and a pair built from a key and a value carries status Ok. -/
structure pair_t where
  key : Nat
  val : Nat
  rslt : status_t
deriving DecidableEq

/-- pair_t built from a status alone, as in the source's pair_t(ERR). -/
def pair_t.ofStatus (s : status_t) : pair_t := ⟨0, 0, s⟩

/-- Result shape of INS / DEL / DELS commands (ins_rslt_t, del_rslt_t and
dels_rslt_t in libspu, struct rsltfrmt_1 in the driver): a status and the
structure power. -/
structure pw_rslt_t where
  rslt : status_t
  power : Nat
deriving DecidableEq

/-- Result shape of ADDS (adds_rslt_t, struct rsltfrmt_0): a status and
the fresh global structure identifier. -/
structure adds_rslt_t where
  rslt : status_t
  gsid : Nat
deriving DecidableEq

/-- Result shape of the key-returning queries at the driver level
(struct rsltfrmt_2): status, key words, value words and power. -/
structure rsltfrmt_2 where
  rslt : status_t
  key : List Nat
  val : List Nat
  power : Nat

/-- Result shape of the key-returning queries at the libspu level
(srch_rslt_t and friends): status, key, value and power. -/
structure kv_rslt_t where
  rslt : status_t
  key : Nat
  val : Nat
  power : Nat
deriving DecidableEq

/-
  spudrv/cmdexec.c — burst construction and result decode.
  SPU_WEIGHT is a build-time macro from a header not under src, so it is a
  parameter W throughout.  Register addresses KEY_REG + i, VAL_REG + i and
  POWER_REG are kept symbolic as an inductive address type.
-/

/-- Symbolic burst register addresses: KEY_REG + i, VAL_REG + i, POWER_REG. -/
inductive reg_addr where
  | KEY : Nat → reg_addr
  | VAL : Nat → reg_addr
  | POWER : reg_addr
deriving DecidableEq

/-- The to-read burst built by init_burst_r: its count and its address list. -/
structure pci_burst_r where
  count : Nat
  addr_shift : List reg_addr
deriving DecidableEq

/-- init_burst_r for a result-format-1 command: count = 1, just the POWER word. -/
def init_burst_r_1 : pci_burst_r := ⟨1, [reg_addr.POWER]⟩

/-- init_burst_r for a result-format-2 command: count = 2*W + 1; addresses
KEY_REG + i at index i, VAL_REG + i at index i + W, POWER_REG at index
count - 1. -/
def init_burst_r_2 (W : Nat) : pci_burst_r :=
  ⟨2 * W + 1,
   ((List.range W).map reg_addr.KEY ++ (List.range W).map reg_addr.VAL)
     ++ [reg_addr.POWER]⟩

/-- set_rsltfrmt, result format 1 branch.  The read-back words are modelled as
the memory around the burst data buffer, data : Int → Nat, with the burst
occupying indices 0 .. count - 1.  In the C source the local variable count is
initialized to 0 and never reassigned, so data[count-1] is data[-1]: the u8
count promotes to int and 0 - 1 = -1. The status is set to OK unconditionally. -/
def set_rsltfrmt_1 (data : Int → Nat) : pw_rslt_t :=
  ⟨OK, data ((0 : Int) - 1)⟩

/-- set_rsltfrmt, result format 2 branch: key words from data[0..W-1], value
words from data[W..2W-1], power from data[count-1] with the same local
count = 0, i.e. data[-1].  The status is set to OK unconditionally. -/
def set_rsltfrmt_2 (W : Nat) (data : Int → Nat) : rsltfrmt_2 :=
  ⟨OK,
   (List.range W).map (fun i => data (Int.ofNat i)),
   (List.range W).map (fun i => data (Int.ofNat (i + W))),
   data ((0 : Int) - 1)⟩

/-- Outcome of init_burst_w: failure (nonzero error return before the burst is
built) or a built write burst; of the burst we record its count and the
resolved structure slots that are packed into the command word.  The command
word's sub-field shift macros live in headers not under src and no claim
depends on them, so the word itself is not reassembled. -/
inductive winit where
  | fail : winit
  | ok : Nat → List Int → winit
deriving DecidableEq

/-- init_burst_w for command format 1 (INS: key + value + cmd/str).
resolve is the gsidresolver collaborator; a result ≤ 0 is a failed
resolution, as in the source's check str <= 0. -/
def init_burst_w_1 (W : Nat) (resolve : Nat → Int) (gsid : Nat) : winit :=
  let str := resolve gsid
  if str ≤ 0 then winit.fail else winit.ok (2 * W + 1) [str]

/-- init_burst_w for command format 2 (key + cmd/str). -/
def init_burst_w_2 (W : Nat) (resolve : Nat → Int) (gsid : Nat) : winit :=
  let str := resolve gsid
  if str ≤ 0 then winit.fail else winit.ok (W + 1) [str]

/-- init_burst_w for command format 3 (cmd/str only). -/
def init_burst_w_3 (resolve : Nat → Int) (gsid : Nat) : winit :=
  let str := resolve gsid
  if str ≤ 0 then winit.fail else winit.ok 1 [str]

/-- init_burst_w for command format 4 (three identifiers gsid_a, gsid_b,
gsid_r).  Translated faithfully: after str_r is resolved the source tests
str_b <= 0 a second time instead of str_r, so a failed resolution of gsid_r
is never detected. -/
def init_burst_w_4 (resolve : Nat → Int) (gsid_a gsid_b gsid_r : Nat) : winit :=
  let str_a := resolve gsid_a
  if str_a ≤ 0 then winit.fail else
  let str_b := resolve gsid_b
  if str_b ≤ 0 then winit.fail else
  let str_r := resolve gsid_r
  if str_b ≤ 0 then winit.fail else winit.ok 1 [str_a, str_b, str_r]

/-- init_burst_w for command format 5 (gsid_a and gsid_r).  In the source the
guard after resolving gsid_r reads the uninitialized local str_b; that
indeterminate value is the explicit parameter str_b here. -/
def init_burst_w_5 (resolve : Nat → Int) (str_b : Int) (gsid_a gsid_r : Nat) : winit :=
  let str_a := resolve gsid_a
  if str_a ≤ 0 then winit.fail else
  let str_r := resolve gsid_r
  if str_b ≤ 0 then winit.fail else winit.ok 1 [str_a, str_r]

/-- Control flow of execute_cmd after alloc_rslt, for non-ADDS commands: the
write burst is issued to the bus iff init_burst_w and then init_burst_r both
succeed (a none read burst stands for the unknown-command error return). -/
def execute_cmd_writes (bw : winit) (br : Option pci_burst_r) : Bool :=
  match bw, br with
  | winit.ok _ _, some _ => true
  | _, _ => false

/-
  simulator/Simulator.cpp — in-memory backend.  std::map<key_t, value_t> is
  modelled as an association list with unique keys: operator[] replaces the
  value of the first matching key or appends a fresh entry, erase removes the
  key, find returns the first match.  The claims settled against it do not
  depend on the iteration order of std::map.
-/

/-- std::map::find — first entry with the given key. -/
def assocFind {α : Type} : List (Nat × α) → Nat → Option α
  | [], _ => none
  | kv :: rest, k => if kv.1 = k then some kv.2 else assocFind rest k

/-- std::map::erase — remove the entry with the given key. -/
def assocErase {α : Type} (m : List (Nat × α)) (k : Nat) : List (Nat × α) :=
  m.filter (fun kv => decide (kv.1 ≠ k))

/-- std::map::operator[] followed by assignment — overwrite the value of an
existing key, or add the pair when the key is absent. -/
def mapInsert : List (Nat × Nat) → Nat → Nat → List (Nat × Nat)
  | [], k, v => [(k, v)]
  | kv :: rest, k, v => if kv.1 = k then (k, v) :: rest else kv :: mapInsert rest k v

namespace Simulator

/-- Simulator::get_power — the element count of the structure's map. -/
def get_power (m : List (Nat × Nat)) : Nat := m.length

/-- Simulator::insert — (*_data)[key] = value; return OK. -/
def insert (m : List (Nat × Nat)) (k v : Nat) : List (Nat × Nat) × status_t :=
  (mapInsert m k v, OK)

/-- Simulator::del — _data->erase(key); return OK. -/
def del (m : List (Nat × Nat)) (k : Nat) : List (Nat × Nat) × status_t :=
  (assocErase m k, OK)

/-- Simulator::search — found keys yield the pair with status OK (the pair_t
field default), absent keys yield pair_t(ERR). -/
def search (m : List (Nat × Nat)) (k : Nat) : pair_t :=
  match assocFind m k with
  | some v => ⟨k, v, OK⟩
  | none => pair_t.ofStatus ERR

/-- Simulator::deleteStructure — erase the gsid from globalStructures and
return the literal dels_rslt_t{.rslt = OK, .power = 0}. -/
def deleteStructure (reg : List (Nat × List (Nat × Nat))) (g : Nat) :
    List (Nat × List (Nat × Nat)) × pw_rslt_t :=
  (assocErase reg g, ⟨OK, 0⟩)

end Simulator

/-
  libspu/key.hpp — the key bit-packing compiler.  u32 arithmetic is Nat
  modulo wordMod = 2^32; the key array u32 key[SPU_WEIGHT] is a list of W
  words updated in place via List.set; field names are Nat.
-/

/-- One u32 machine word's modulus. -/
def wordMod : Nat := 2 ^ 32

/-- Key::mask — a decoder from a length to that many low one-bits, built by
OR-ing 1 << i for i < len (each shifted one truncated to u32). -/
def mask (len : Nat) : Nat :=
  (List.range len).foldl (fun m i => m ||| ((1 <<< i) % wordMod)) 0

/-- Key::find_data_by_name — the first datum whose name matches, else 0. -/
def find_data_by_name : List (Nat × Nat) → Nat → Nat
  | [], _ => 0
  | fd :: rest, nm => if fd.1 = nm then fd.2 else find_data_by_name rest nm

/-- The loop state of Key::compileKey: the key words, the running bit shift
and the current word index (the local variable also called weight). -/
structure KeyState where
  key : List Nat
  shift : Nat
  weight : Nat

/-- One iteration of the Key::compileKey loop for the field fl = (name, length):
mask the field's datum, OR it into the current word shifted by the running
shift, advance the shift by the field length, and if the shift reached 32 and
this is not the last word, carry into the next word: shift -= 32, weight++,
field >>= length - prev_shift (u32 subtraction, wrapping modulo 2^32), and OR
field & mask(shift) into the new word. -/
def compileStep (W : Nat) (vals : List (Nat × Nat)) (st : KeyState)
    (fl : Nat × Nat) : KeyState :=
  let field_data := find_data_by_name vals fl.1
  let field_mask := mask fl.2
  let field := field_data &&& field_mask
  let k1 := st.key.set st.weight
    ((st.key.getD st.weight 0 ||| ((field <<< st.shift) % wordMod)) % wordMod)
  let prev_shift := st.shift
  let shift1 := st.shift + fl.2
  if 32 ≤ shift1 ∧ st.weight < W - 1 then
    let shift2 := shift1 - 32
    let weight2 := st.weight + 1
    let field2 := field >>> ((fl.2 + wordMod - prev_shift) % wordMod)
    let portion := mask shift2
    let k2 := k1.set weight2 ((k1.getD weight2 0 ||| (field2 &&& portion)) % wordMod)
    ⟨k2, shift2, weight2⟩
  else
    ⟨k1, shift1, st.weight⟩

/-- Key::compileKey — fold the loop over the schema fields, starting from the
caller's key array (the source only ORs into it, it never clears it) with
shift = 0 and weight = 0, and return the resulting key words. -/
def compileKey (W : Nat) (key0 : List Nat) (flds : List (Nat × Nat))
    (vals : List (Nat × Nat)) : List Nat :=
  (flds.foldl (compileStep W vals) ⟨key0, 0, 0⟩).key

/-- Total declared width of a schema: the sum of its field lengths. -/
def totalWidth (flds : List (Nat × Nat)) : Nat :=
  (flds.map (fun f => f.2)).sum

/-
  libspu/base_structure.hpp — the client facade.  The character-device
  executor fops.execute is the external collaborator, so each method takes the
  result it returned as an argument; the method builds its command from the
  cached gsid, stores the result's power into the power cache and returns the
  result's status (or the pair made of its key, value and status).
-/

/-- The BaseStructure client state: the cached gsid and the cached power. -/
structure BaseStructure where
  gsid : Nat
  power : Nat
deriving DecidableEq

namespace BaseStructure

/-- The constructor: power is initialized to 0, then ADDS is executed; on OK
the returned gsid is stored, otherwise CouldNotCreateStructure is thrown
(modelled as none). -/
def mk0 (r : adds_rslt_t) : Option BaseStructure :=
  if r.rslt = OK then some ⟨r.gsid, 0⟩ else none

/-- BaseStructure::get_power — the cached power. -/
def get_power (s : BaseStructure) : Nat := s.power

/-- BaseStructure::insert (single): execute INS, cache the result's power,
return the result's status. -/
def insert (s : BaseStructure) (r : pw_rslt_t) : BaseStructure × status_t :=
  (⟨s.gsid, r.power⟩, r.rslt)

/-- BaseStructure::del: execute DEL, cache the result's power, return the
result's status. -/
def del (s : BaseStructure) (r : pw_rslt_t) : BaseStructure × status_t :=
  (⟨s.gsid, r.power⟩, r.rslt)

/-- The destructor: execute DELS and cache the result's power. -/
def dtor (s : BaseStructure) (r : pw_rslt_t) : BaseStructure :=
  ⟨s.gsid, r.power⟩

/-- BaseStructure::search: execute SRCH, cache the result's power, return
the pair of the result's key, value and status. -/
def search (s : BaseStructure) (r : kv_rslt_t) : BaseStructure × pair_t :=
  (⟨s.gsid, r.power⟩, ⟨r.key, r.val, r.rslt⟩)

/-- BaseStructure::min — same result handling as search. -/
def min (s : BaseStructure) (r : kv_rslt_t) : BaseStructure × pair_t :=
  (⟨s.gsid, r.power⟩, ⟨r.key, r.val, r.rslt⟩)

/-- BaseStructure::max — same result handling as search. -/
def max (s : BaseStructure) (r : kv_rslt_t) : BaseStructure × pair_t :=
  (⟨s.gsid, r.power⟩, ⟨r.key, r.val, r.rslt⟩)

/-- BaseStructure::next — same result handling as search. -/
def next (s : BaseStructure) (r : kv_rslt_t) : BaseStructure × pair_t :=
  (⟨s.gsid, r.power⟩, ⟨r.key, r.val, r.rslt⟩)

/-- BaseStructure::prev — same result handling as search. -/
def prev (s : BaseStructure) (r : kv_rslt_t) : BaseStructure × pair_t :=
  (⟨s.gsid, r.power⟩, ⟨r.key, r.val, r.rslt⟩)

/-- BaseStructure::nsm — same result handling as search. -/
def nsm (s : BaseStructure) (r : kv_rslt_t) : BaseStructure × pair_t :=
  (⟨s.gsid, r.power⟩, ⟨r.key, r.val, r.rslt⟩)

/-- BaseStructure::ngr — same result handling as search. -/
def ngr (s : BaseStructure) (r : kv_rslt_t) : BaseStructure × pair_t :=
  (⟨s.gsid, r.power⟩, ⟨r.key, r.val, r.rslt⟩)

/-- BaseStructure::insert (vectorized): run single inserts over the vector in
order; as soon as one returns a status other than OK, return that status
(with the state the failing insert left); after the loop return OK.  The
executor's response to each INS is the collaborator exec, which may depend on
the current client state and the inserted pair. -/
def insertVec (exec : BaseStructure → Nat → Nat → pw_rslt_t) :
    BaseStructure → List (Nat × Nat) → BaseStructure × status_t
  | s, [] => (s, OK)
  | s, kv :: rest =>
    let p := insert s (exec s kv.1 kv.2)
    if p.2 ≠ OK then p else insertVec exec p.1 rest

/-- Reference sequential semantics for the batched insert: the state reached
by running the single inserts one after another, never stopping.  Used to
phrase which prefix of the batch a run of insertVec has applied. -/
def applyAll (exec : BaseStructure → Nat → Nat → pw_rslt_t) :
    BaseStructure → List (Nat × Nat) → BaseStructure
  | s, [] => s
  | s, kv :: rest => applyAll exec (insert s (exec s kv.1 kv.2)).1 rest

/-- Whether every single insert of the batch, run sequentially from s,
returns OK. -/
def allOk (exec : BaseStructure → Nat → Nat → pw_rslt_t) :
    BaseStructure → List (Nat × Nat) → Bool
  | _, [] => true
  | s, kv :: rest =>
    let p := insert s (exec s kv.1 kv.2)
    if p.2 = OK then allOk exec p.1 rest else false

end BaseStructure

/-
  Helper lemmas about the association-list model of std::map.
-/

theorem assocFind_mapInsert_self (m : List (Nat × Nat)) (k v : Nat) :
    assocFind (mapInsert m k v) k = some v := by
  induction m with
  | nil => simp [mapInsert, assocFind]
  | cons kv rest ih =>
    by_cases h : kv.1 = k
    · simp [mapInsert, h, assocFind]
    · simp [mapInsert, h, assocFind, ih]

theorem assocFind_assocErase_self {α : Type} (m : List (Nat × α)) (k : Nat) :
    assocFind (assocErase m k) k = none := by
  induction m with
  | nil => simp [assocErase, assocFind]
  | cons kv rest ih =>
    by_cases h : kv.1 = k
    · simpa [assocErase, h] using ih
    · simpa [assocErase, h, assocFind] using ih

theorem length_mapInsert_of_mem (m : List (Nat × Nat)) (k v w : Nat)
    (h : assocFind m k = some w) : (mapInsert m k v).length = m.length := by
  induction m with
  | nil => simp [assocFind] at h
  | cons kv rest ih =>
    by_cases hk : kv.1 = k
    · simp [mapInsert, hk]
    · simp [assocFind, hk] at h
      simp [mapInsert, hk, ih h]

theorem mapInsert_idem (m : List (Nat × Nat)) (k v : Nat) :
    mapInsert (mapInsert m k v) k v = mapInsert m k v := by
  induction m with
  | nil => simp [mapInsert]
  | cons kv rest ih =>
    by_cases hk : kv.1 = k
    · simp [mapInsert, hk]
    · simp [mapInsert, hk, ih]

/-
  Helper lemmas about the key compiler.
-/

theorem mask_succ (n : Nat) : mask (n + 1) = mask n ||| ((1 <<< n) % wordMod) := by
  unfold mask
  rw [List.range_succ, List.foldl_append]
  rfl

theorem shiftLeft_one_mod (n : Nat) :
    (1 <<< n) % wordMod = if n < 32 then 2 ^ n else 0 := by
  rw [Nat.shiftLeft_eq, one_mul, wordMod]
  by_cases h : n < 32
  · rw [if_pos h, Nat.mod_eq_of_lt (Nat.pow_lt_pow_right (by norm_num) h)]
  · rw [if_neg h]
    have : (2 : Nat) ^ 32 ∣ 2 ^ n := pow_dvd_pow 2 (by omega)
    omega

theorem mask_testBit_true_iff (len : Nat) :
    ∀ i, (mask len).testBit i = true ↔ i < len ∧ i < 32 := by
  induction len with
  | zero => intro i; simp [mask]
  | succ n ih =>
    intro i
    rw [mask_succ, Nat.testBit_lor, Bool.or_eq_true, ih, shiftLeft_one_mod]
    by_cases h : n < 32
    · rw [if_pos h, Nat.testBit_two_pow]
      constructor
      · intro hc
        rcases hc with hc | hc
        · omega
        · have := of_decide_eq_true hc
          omega
      · intro hc
        by_cases hn : i < n
        · exact Or.inl (by omega)
        · exact Or.inr (decide_eq_true (by omega))
    · rw [if_neg h, Nat.zero_testBit]
      constructor
      · intro hc
        rcases hc with hc | hc
        · omega
        · cases hc
      · intro hc
        exact Or.inl (by omega)

theorem mask_testBit_false (len i : Nat) (h : len ≤ i ∨ 32 ≤ i) :
    (mask len).testBit i = false := by
  cases hb : (mask len).testBit i
  · rfl
  · have := (mask_testBit_true_iff len i).mp hb
    omega

theorem masked_field_shifted_testBit_false (d len s i : Nat) (hi : s + len ≤ i) :
    (((d &&& mask len) <<< s % wordMod).testBit i) = false := by
  rw [wordMod, Nat.testBit_mod_two_pow, Nat.testBit_shiftLeft, Nat.testBit_land,
    mask_testBit_false len (i - s) (Or.inl (by omega))]
  simp

theorem masked_portion_testBit_false (f s2 i : Nat) (hi : s2 ≤ i) :
    ((f &&& mask s2).testBit i) = false := by
  rw [Nat.testBit_land, mask_testBit_false s2 i (Or.inl hi)]
  simp

/-- Writing (old ||| x) % 2^32 into slot j of the key array keeps bit i of
word w clear, provided it was clear before and x does not set it when w is
the written slot. -/
theorem getD_set_or_bits (k : List Nat) (j x w i : Nat)
    (hk : ((k.getD w 0).testBit i) = false)
    (hx : w = j → x.testBit i = false) :
    (((k.set j ((k.getD j 0 ||| x) % wordMod)).getD w 0).testBit i) = false := by
  by_cases hw : w = j
  · subst hw
    by_cases hlen : w < k.length
    · rw [List.getD_eq_getElem?_getD, List.getElem?_set_self hlen, Option.getD_some,
        wordMod, Nat.testBit_mod_two_pow, Nat.testBit_lor, hk, hx rfl]
      simp
    · rw [List.set_eq_of_length_le (by omega)]
      exact hk
  · rw [List.getD_eq_getElem?_getD, List.getElem?_set_ne (fun hj => hw hj.symm),
      ← List.getD_eq_getElem?_getD]
    exact hk

/-- One compileKey step advances the absolute bit position
32 * weight + shift by exactly the field's declared length. -/
theorem compileStep_pos (W : Nat) (vals : List (Nat × Nat)) (st : KeyState)
    (fl : Nat × Nat) :
    32 * (compileStep W vals st fl).weight + (compileStep W vals st fl).shift
      = 32 * st.weight + st.shift + fl.2 := by
  unfold compileStep
  dsimp only
  split
  · rename_i h
    dsimp only
    omega
  · rename_i h
    dsimp only
    omega

/-- One compileKey step preserves the invariant that every key bit at an
absolute position at or beyond the running position is clear, the position
having advanced by the field length. -/
theorem compileStep_bits (W : Nat) (vals : List (Nat × Nat)) (st : KeyState)
    (fl : Nat × Nat)
    (h : ∀ w i, 32 * st.weight + st.shift ≤ 32 * w + i →
      ((st.key.getD w 0).testBit i) = false) :
    ∀ w i, 32 * st.weight + st.shift + fl.2 ≤ 32 * w + i →
      (((compileStep W vals st fl).key.getD w 0).testBit i) = false := by
  intro w i hwi
  unfold compileStep
  dsimp only
  split
  · rename_i hcar
    dsimp only
    apply getD_set_or_bits
    · apply getD_set_or_bits
      · exact h w i (by omega)
      · intro hw
        subst hw
        exact masked_field_shifted_testBit_false _ fl.2 st.shift i (by omega)
    · intro hw
      subst hw
      apply masked_portion_testBit_false
      omega
  · rename_i hcar
    dsimp only
    apply getD_set_or_bits
    · exact h w i (by omega)
    · intro hw
      subst hw
      exact masked_field_shifted_testBit_false _ fl.2 st.shift i (by omega)

/-- Folding compileKey steps over a schema from a state whose key is clear at
and beyond the running position leaves the key clear at and beyond the
position advanced by the schema's total width. -/
theorem compileFold_bits (W : Nat) (vals : List (Nat × Nat)) :
    ∀ (flds : List (Nat × Nat)) (st : KeyState),
      (∀ w i, 32 * st.weight + st.shift ≤ 32 * w + i →
        ((st.key.getD w 0).testBit i) = false) →
      ∀ w i, 32 * st.weight + st.shift + totalWidth flds ≤ 32 * w + i →
        (((flds.foldl (compileStep W vals) st).key.getD w 0).testBit i) = false := by
  intro flds
  induction flds with
  | nil =>
    intro st h w i hwi
    simp only [totalWidth, List.map_nil, List.sum_nil] at hwi
    exact h w i (by omega)
  | cons fl rest ih =>
    intro st h w i hwi
    simp only [totalWidth, List.map_cons, List.sum_cons] at hwi
    rw [List.foldl_cons]
    have hstep := compileStep_bits W vals st fl h
    have hpos := compileStep_pos W vals st fl
    apply ih (compileStep W vals st fl)
    · intro w2 i2 hw2
      exact hstep w2 i2 (by omega)
    · simp only [totalWidth] at hwi ⊢
      omega

/-
  Helper lemmas about the batched insert loop.
-/

theorem insertVec_append_of_allOk (exec : BaseStructure → Nat → Nat → pw_rslt_t)
    (pre : List (Nat × Nat)) :
    ∀ (s : BaseStructure) (tail : List (Nat × Nat)),
      BaseStructure.allOk exec s pre = true →
      BaseStructure.insertVec exec s (pre ++ tail)
        = BaseStructure.insertVec exec (BaseStructure.applyAll exec s pre) tail := by
  induction pre with
  | nil => intro s tail _; rfl
  | cons kv rest ih =>
    intro s tail h
    rw [BaseStructure.allOk] at h
    by_cases hok : (BaseStructure.insert s (exec s kv.1 kv.2)).2 = OK
    · rw [List.cons_append, BaseStructure.insertVec]
      rw [if_neg (by simp [hok])]
      rw [BaseStructure.applyAll]
      apply ih
      simpa [hok] using h
    · simp [hok] at h

theorem insertVec_of_allOk (exec : BaseStructure → Nat → Nat → pw_rslt_t)
    (l : List (Nat × Nat)) :
    ∀ (s : BaseStructure), BaseStructure.allOk exec s l = true →
      BaseStructure.insertVec exec s l = (BaseStructure.applyAll exec s l, OK) := by
  induction l with
  | nil => intro s _; rfl
  | cons kv rest ih =>
    intro s h
    rw [BaseStructure.allOk] at h
    by_cases hok : (BaseStructure.insert s (exec s kv.1 kv.2)).2 = OK
    · rw [BaseStructure.insertVec]
      rw [if_neg (by simp [hok])]
      rw [BaseStructure.applyAll]
      apply ih
      simpa [hok] using h
    · simp [hok] at h

/-
  Claim theorems.
-/

/-- Claim C5: the batched insert runs the single inserts sequentially in list
order: on the empty batch it returns OK with the state untouched; when every
single insert answers OK it returns OK with all inserts applied; and when the
batch splits as pre ++ failing :: post with every insert of pre returning OK
and the next insert returning a non-OK status, it returns exactly that
failing insert's outcome — the inserts of pre stay applied, the failing
insert's power update is kept, and post is never attempted. -/
theorem insertVector_sequential_spec (exec : BaseStructure → Nat → Nat → pw_rslt_t)
    (s : BaseStructure) :
    BaseStructure.insertVec exec s [] = (s, OK)
    ∧ (∀ l, BaseStructure.allOk exec s l = true →
        BaseStructure.insertVec exec s l = (BaseStructure.applyAll exec s l, OK))
    ∧ (∀ pre kv post, BaseStructure.allOk exec s pre = true →
        (exec (BaseStructure.applyAll exec s pre) kv.1 kv.2).rslt ≠ OK →
        BaseStructure.insertVec exec s (pre ++ kv :: post)
          = BaseStructure.insert (BaseStructure.applyAll exec s pre)
              (exec (BaseStructure.applyAll exec s pre) kv.1 kv.2)) := by
  refine ⟨rfl, fun l h => insertVec_of_allOk exec l s h, fun pre kv post hpre hfail => ?_⟩
  rw [insertVec_append_of_allOk exec pre s (kv :: post) hpre]
  rw [BaseStructure.insertVec]
  rw [if_pos]
  exact hfail

/-- An executor that accepts every key except 3, incrementing the reported
power on success and keeping it on failure. -/
def c5exec : BaseStructure → Nat → Nat → pw_rslt_t :=
  fun s k _ => if k = 3 then ⟨ERR, s.power⟩ else ⟨OK, s.power + 1⟩

/-- Witness for insertVector_sequential_spec: under c5exec, inserting
[(1,10),(2,20)] succeeds with power 2, and the batch [(1,10),(2,20),(3,30),(4,40)]
stops at key 3 with status ERR, power 2 and entry (4,40) never attempted. -/
theorem insertVector_sequential_spec_witness :
    BaseStructure.allOk c5exec ⟨0, 0⟩ [(1, 10), (2, 20)] = true
    ∧ BaseStructure.insertVec c5exec ⟨0, 0⟩ [(1, 10), (2, 20)] = (⟨0, 2⟩, OK)
    ∧ BaseStructure.insertVec c5exec ⟨0, 0⟩ [(1, 10), (2, 20), (3, 30), (4, 40)]
        = (⟨0, 2⟩, ERR) := by
  refine ⟨by decide, ?_, ?_⟩
  · exact (insertVector_sequential_spec c5exec ⟨0, 0⟩).2.1 [(1, 10), (2, 20)] (by decide)
  · exact (insertVector_sequential_spec c5exec ⟨0, 0⟩).2.2
      [(1, 10), (2, 20)] (3, 30) [(4, 40)] (by decide) (by decide)

/-- Claim C3 counterexample: with a 1-word, 1-bit schema and no values, the
compiled word equals whatever the output array held before (compileKey only
ORs into it), so the output is not determined by schema and values — starting
from 0xFFFFFFFF instead of 0 changes the result — and bit 1, which lies above
the total declared width 1, is set. -/
theorem compileKey_prior_contents_claim_false :
    ¬ (∀ key0 : List Nat, key0.length = 1 →
        (compileKey 1 key0 [(0, 1)] []).getD 0 0
            = (compileKey 1 [0] [(0, 1)] []).getD 0 0
        ∧ ∀ i, 1 ≤ i →
            Nat.testBit ((compileKey 1 key0 [(0, 1)] []).getD 0 0) i = false) :=
  fun h => absurd ((h [4294967295] rfl).2 1 (by decide)) (by decide)

/-- Claim C3 as amended: compileKey ORs the packed fields into the array it
is given, so its output is determined by the schema and the values only
together with the prior array contents; when the output array is
zero-initialized, every bit whose absolute position 32 * w + i lies at or
above the total declared schema width is zero in the compiled key. -/
theorem compileKey_high_bits_zero (W : Nat) (flds vals : List (Nat × Nat))
    (w i : Nat) (h : totalWidth flds ≤ 32 * w + i) :
    Nat.testBit ((compileKey W (List.replicate W 0) flds vals).getD w 0) i
      = false := by
  unfold compileKey
  apply compileFold_bits W vals flds ⟨List.replicate W 0, 0, 0⟩
  · intro w2 i2 _
    have hz : (List.replicate W (0 : Nat)).getD w2 0 = 0 := by
      rw [List.getD_eq_getElem?_getD, List.getElem?_replicate]
      split <;> rfl
    rw [hz]
    exact Nat.zero_testBit i2
  · simpa using h

/-- Witness for compileKey_high_bits_zero: for the 40-bit schema
[(A,20),(B,20)] with W = 2, bit 8 of word 1 (absolute position 40) is zero. -/
theorem compileKey_high_bits_zero_witness :
    totalWidth [(0, 20), (1, 20)] ≤ 32 * 1 + 8
    ∧ Nat.testBit ((compileKey 2 (List.replicate 2 0) [(0, 20), (1, 20)]
        [(0, 5), (1, 7)]).getD 1 0) 8 = false :=
  ⟨by decide,
   compileKey_high_bits_zero 2 [(0, 20), (1, 20)] [(0, 5), (1, 7)] 1 8 (by decide)⟩

/-- Closed form of compileKey on the schema [(A,20),(B,20)] with W = 2 and a
zero-initialized array: word 0 is A's 20 masked bits ORed with B's masked
bits shifted by 20 (truncated to 32 bits); word 1 is B's masked bits shifted
right by length - prev_shift = 0 and ANDed with mask 8 — that is, B's LOW
8 bits, not its high ones. -/
theorem c2_compile_eq (a b : Nat) :
    compileKey 2 [0, 0] [(0, 20), (1, 20)] [(0, a), (1, b)]
      = [((a &&& mask 20) ||| (((b &&& mask 20) <<< 20) % wordMod)) % wordMod,
         (b &&& mask 20) &&& mask 8] := by
  have hb : a &&& mask 20 < wordMod := by
    have h1 : a &&& mask 20 ≤ mask 20 := Nat.and_le_right
    have h2 : mask 20 = 1048575 := by decide
    rw [wordMod]; omega
  have hb2 : b &&& mask 20 &&& mask 8 < wordMod := by
    have h1 : b &&& mask 20 &&& mask 8 ≤ mask 8 := Nat.and_le_right
    have h2 : mask 8 = 255 := by decide
    rw [wordMod]; omega
  simp +decide [compileKey, compileStep, find_data_by_name,
    Nat.shiftLeft_zero, Nat.zero_or, Nat.mod_eq_of_lt hb, Nat.mod_eq_of_lt hb2]

/-- Claim C2 counterexample: for B = 1 the claim predicts word 1 to hold B's
bits 12-19 (all zero), but compileKey puts B's low bits there: word 1 is 1. -/
theorem compileKey_carry_claim_false :
    ¬ (∀ a b : Nat,
        (compileKey 2 [0, 0] [(0, 20), (1, 20)] [(0, a), (1, b)]).getD 1 0
          = ((b &&& mask 20) >>> 12) &&& mask 8) :=
  fun h => absurd (h 0 1) (by decide)

/-- Claim C2 as amended: compiling [(A,20),(B,20)] with weight 2 into a
zero-initialized array packs A's 20 masked bits into bits 0-19 of word 0 and
B's low 12 bits into bits 20-31 of word 0, but bits 0-7 of word 1 receive
B's LOW 8 bits (bits 0-7 of B, which the carry shift length - prev_shift = 0
leaves in place), not B's bits 12-19; bits 8 and above of word 1 are zero,
so B's bits 12-19 are not stored anywhere. -/
theorem compileKey_schema2020_packing (a b i : Nat) :
    (i < 20 →
      Nat.testBit ((compileKey 2 [0, 0] [(0, 20), (1, 20)] [(0, a), (1, b)]).getD 0 0) i
        = Nat.testBit a i)
    ∧ (20 ≤ i → i < 32 →
      Nat.testBit ((compileKey 2 [0, 0] [(0, 20), (1, 20)] [(0, a), (1, b)]).getD 0 0) i
        = Nat.testBit b (i - 20))
    ∧ (i < 8 →
      Nat.testBit ((compileKey 2 [0, 0] [(0, 20), (1, 20)] [(0, a), (1, b)]).getD 1 0) i
        = Nat.testBit b i)
    ∧ (8 ≤ i →
      Nat.testBit ((compileKey 2 [0, 0] [(0, 20), (1, 20)] [(0, a), (1, b)]).getD 1 0) i
        = false) := by
  rw [c2_compile_eq a b]
  have hw0 : ([((a &&& mask 20) ||| (((b &&& mask 20) <<< 20) % wordMod)) % wordMod,
      (b &&& mask 20) &&& mask 8]).getD 0 0
      = ((a &&& mask 20) ||| (((b &&& mask 20) <<< 20) % wordMod)) % wordMod := rfl
  have hw1 : ([((a &&& mask 20) ||| (((b &&& mask 20) <<< 20) % wordMod)) % wordMod,
      (b &&& mask 20) &&& mask 8]).getD 1 0 = (b &&& mask 20) &&& mask 8 := rfl
  rw [hw0, hw1]
  refine ⟨fun hi => ?_, fun h1 h2 => ?_, fun hi => ?_, fun hi => ?_⟩
  · rw [wordMod, Nat.testBit_mod_two_pow, Nat.testBit_lor, Nat.testBit_land,
      Nat.testBit_mod_two_pow, Nat.testBit_shiftLeft,
      (mask_testBit_true_iff 20 i).mpr ⟨hi, by omega⟩,
      decide_eq_true (show i < 32 by omega),
      decide_eq_false (show ¬ (i ≥ 20) by omega)]
    simp
  · rw [wordMod, Nat.testBit_mod_two_pow, Nat.testBit_lor, Nat.testBit_land,
      Nat.testBit_mod_two_pow, Nat.testBit_shiftLeft,
      mask_testBit_false 20 i (Or.inl (by omega)),
      decide_eq_true (show i < 32 by omega),
      decide_eq_true (show i ≥ 20 by omega),
      Nat.testBit_land,
      (mask_testBit_true_iff 20 (i - 20)).mpr ⟨by omega, by omega⟩]
    simp
  · rw [Nat.testBit_land, Nat.testBit_land,
      (mask_testBit_true_iff 20 i).mpr ⟨by omega, by omega⟩,
      (mask_testBit_true_iff 8 i).mpr ⟨hi, by omega⟩]
    simp
  · exact masked_portion_testBit_false (b &&& mask 20) 8 i hi

/-- Witness for compileKey_schema2020_packing at a = 5, b = 171 (0xAB):
bit 3 of word 0 is A's bit 3 (0), bit 21 of word 0 is B's bit 1 (1), bit 1 of
word 1 is B's bit 1 (1), and bit 9 of word 1 is 0. -/
theorem compileKey_schema2020_packing_witness :
    Nat.testBit ((compileKey 2 [0, 0] [(0, 20), (1, 20)] [(0, 5), (1, 171)]).getD 0 0) 3
        = Nat.testBit 5 3
    ∧ Nat.testBit ((compileKey 2 [0, 0] [(0, 20), (1, 20)] [(0, 5), (1, 171)]).getD 0 0) 21
        = Nat.testBit 171 1
    ∧ Nat.testBit ((compileKey 2 [0, 0] [(0, 20), (1, 20)] [(0, 5), (1, 171)]).getD 1 0) 1
        = Nat.testBit 171 1
    ∧ Nat.testBit ((compileKey 2 [0, 0] [(0, 20), (1, 20)] [(0, 5), (1, 171)]).getD 1 0) 9
        = false :=
  ⟨(compileKey_schema2020_packing 5 171 3).1 (by omega),
   (compileKey_schema2020_packing 5 171 21).2.1 (by omega) (by omega),
   (compileKey_schema2020_packing 5 171 1).2.2.1 (by omega),
   (compileKey_schema2020_packing 5 171 9).2.2.2 (by omega)⟩

/-- Claim C9: for both result layouts that follow a poll and read burst
(formats 1 and 2), set_rsltfrmt sets the decoded status to OK unconditionally,
whatever the read-back register contents are: the decode step never produces
an Error status. -/
theorem set_rsltfrmt_status_always_ok (W : Nat) (data : Int → Nat) :
    (set_rsltfrmt_1 data).rslt = OK ∧ (set_rsltfrmt_2 W data).rslt = OK :=
  ⟨rfl, rfl⟩

/-- Read-back memory exhibiting the result-decode power misread: the burst
data words are at indices 0, 1, 2, ..., and index -1 is whatever happens to
sit just before the buffer. -/
def c1data : Int → Nat := fun i => if i = -1 then 42 else if i = 0 then 7 else 0

/-- Claim C1 (code bug): the POWER register is read into the last word of the
read burst — index count - 1 where count is 1 for result format 1 and
2*W + 1 for result format 2 — but set_rsltfrmt decodes the power field from
index -1 (its local count is still 0), an out-of-bounds word, so the decoded
power (42 here) differs from the value actually read from POWER (7 for
format 1, 0 for format 2 with W = 1). -/
theorem set_rsltfrmt_power_misread :
    init_burst_r_1.count = 1
    ∧ init_burst_r_1.addr_shift.getD (init_burst_r_1.count - 1) (reg_addr.KEY 0)
        = reg_addr.POWER
    ∧ c1data ((1 : Int) - 1) = 7
    ∧ (set_rsltfrmt_1 c1data).power = 42
    ∧ (init_burst_r_2 1).count = 3
    ∧ (init_burst_r_2 1).addr_shift.getD ((init_burst_r_2 1).count - 1)
        (reg_addr.KEY 0) = reg_addr.POWER
    ∧ c1data ((3 : Int) - 1) = 0
    ∧ (set_rsltfrmt_2 1 c1data).power = 42
    ∧ (42 : Nat) ≠ 7 ∧ (42 : Nat) ≠ 0 := by
  decide

/-- A resolver for which gsid 3 fails to resolve (resolve_gsid returns a value
≤ 0) while every other gsid resolves to slot 5. -/
def c4resolve : Nat → Int := fun g => if g = 3 then 0 else 5

/-- Claim C4 (code bug): for the three-identifier layout (command format 4)
the guard after resolving gsid_r tests str_b instead of str_r, so when
gsid_a = 1 and gsid_b = 2 resolve but gsid_r = 3 does not, init_burst_w still
succeeds — packing the failed slot 0 into the command word — and execute_cmd
goes on to issue the write burst instead of returning an error; likewise for
the two-identifier layout (format 5), where the guard reads the uninitialized
str_b (here the junk value 5). -/
theorem init_burst_w_unchecked_result_gsid :
    c4resolve 3 ≤ 0
    ∧ init_burst_w_4 c4resolve 1 2 3 = winit.ok 1 [5, 5, 0]
    ∧ execute_cmd_writes (init_burst_w_4 c4resolve 1 2 3) (some init_burst_r_1) = true
    ∧ init_burst_w_5 c4resolve 5 1 3 = winit.ok 1 [5, 0]
    ∧ execute_cmd_writes (init_burst_w_5 c4resolve 5 1 3) (some init_burst_r_1) = true := by
  decide

/-- Claim C6: in the simulation backend, after insert(k, v) a search(k)
returns the pair {k, v} with OK status, and after delete(k) a search(k)
returns the sentinel pair pair_t(ERR), whose status is ERR. -/
theorem simulator_insert_delete_search (m : List (Nat × Nat)) (k v : Nat) :
    Simulator.search (Simulator.insert m k v).1 k = ⟨k, v, OK⟩
    ∧ Simulator.search (Simulator.del m k).1 k = pair_t.ofStatus ERR
    ∧ (pair_t.ofStatus ERR).rslt = ERR := by
  refine ⟨?_, ?_, rfl⟩
  · simp [Simulator.search, Simulator.insert, assocFind_mapInsert_self]
  · simp [Simulator.search, Simulator.del, assocFind_assocErase_self]

/-- A registry holding one structure (gsid 1) that contains one element. -/
def c7reg : List (Nat × List (Nat × Nat)) := [(1, [(5, 50)])]

/-- Claim C7 counterexample: destroying gsid 1, whose structure holds one
element (power 1), reports power 0, not the power at the time of
destruction. -/
theorem deleteStructure_power_claim_false :
    ¬ ((Simulator.deleteStructure c7reg 1).2.power
        = Simulator.get_power ((assocFind c7reg 1).getD [])) := by
  decide

/-- Claim C7 as amended: destroying a structure removes its mapping from the
global table (a subsequent resolve of the gsid finds nothing) and returns
status OK with power 0 regardless of the element count at the time of
destruction. -/
theorem deleteStructure_returns_zero_power
    (reg : List (Nat × List (Nat × Nat))) (g : Nat) :
    (Simulator.deleteStructure reg g).1 = assocErase reg g
    ∧ assocFind (Simulator.deleteStructure reg g).1 g = none
    ∧ (Simulator.deleteStructure reg g).2 = ⟨OK, 0⟩ :=
  ⟨rfl, assocFind_assocErase_self reg g, rfl⟩

/-- Claim C10: in the simulation backend, inserting an already-present key
overwrites its value and leaves the power unchanged, inserting the same
key-value pair twice yields the same map as inserting it once, and insert
returns OK for every key and value. -/
theorem simulator_insert_overwrite (m : List (Nat × Nat)) (k v w : Nat) :
    (assocFind m k = some w →
      Simulator.get_power (Simulator.insert m k v).1 = Simulator.get_power m
      ∧ assocFind (Simulator.insert m k v).1 k = some v)
    ∧ (Simulator.insert (Simulator.insert m k v).1 k v).1 = (Simulator.insert m k v).1
    ∧ (Simulator.insert m k v).2 = OK := by
  refine ⟨fun h => ⟨?_, ?_⟩, ?_, rfl⟩
  · exact length_mapInsert_of_mem m k v w h
  · exact assocFind_mapInsert_self m k v
  · exact mapInsert_idem m k v

/-- Witness for simulator_insert_overwrite: the map [(1, 10)] contains key 1,
and inserting (1, 7) keeps the power at 1 while overwriting the value. -/
theorem simulator_insert_overwrite_witness :
    assocFind [(1, 10)] 1 = some 10
    ∧ Simulator.get_power (Simulator.insert [(1, 10)] 1 7).1 = 1
    ∧ assocFind (Simulator.insert [(1, 10)] 1 7).1 1 = some 7 :=
  ⟨by decide,
   ((simulator_insert_overwrite [(1, 10)] 1 7 10).1 (by decide)).1,
   ((simulator_insert_overwrite [(1, 10)] 1 7 10).1 (by decide)).2⟩

/-- Claim C8: construction initializes the cached power to 0, and after each
facade operation — single insert, delete, search, min, max, next, prev, nsm,
ngr and destruction — the power cache read by get_power equals the power
field of the result that operation received from the executor. -/
theorem power_cache_tracks_results :
    (∀ r s, BaseStructure.mk0 r = some s → s.get_power = 0)
    ∧ (∀ s r, (BaseStructure.insert s r).1.get_power = r.power
        ∧ (BaseStructure.del s r).1.get_power = r.power
        ∧ (BaseStructure.dtor s r).get_power = r.power)
    ∧ (∀ s r, (BaseStructure.search s r).1.get_power = r.power
        ∧ (BaseStructure.min s r).1.get_power = r.power
        ∧ (BaseStructure.max s r).1.get_power = r.power
        ∧ (BaseStructure.next s r).1.get_power = r.power
        ∧ (BaseStructure.prev s r).1.get_power = r.power
        ∧ (BaseStructure.nsm s r).1.get_power = r.power
        ∧ (BaseStructure.ngr s r).1.get_power = r.power) := by
  refine ⟨fun r s h => ?_, fun s r => ?_, fun s r => ?_⟩
  · unfold BaseStructure.mk0 at h
    by_cases hc : r.rslt = OK
    · simp [hc] at h
      simp [← h, BaseStructure.get_power]
    · simp [hc] at h
  · exact ⟨rfl, rfl, rfl⟩
  · exact ⟨rfl, rfl, rfl, rfl, rfl, rfl, rfl⟩

/-- Witness for power_cache_tracks_results: a freshly constructed structure
(from an OK ADDS result carrying gsid 9) has cached power 0. -/
theorem power_cache_tracks_results_witness :
    BaseStructure.mk0 ⟨OK, 9⟩ = some ⟨9, 0⟩
    ∧ (⟨9, 0⟩ : BaseStructure).get_power = 0 :=
  ⟨rfl, power_cache_tracks_results.1 ⟨OK, 9⟩ ⟨9, 0⟩ rfl⟩

end SPU
